import Mathlib

/-!
Verification of the compviz btrfs search-ioctl binding fragment
(src/wrapper.h) and of the tree-search client core its specification
describes.  The C struct layouts and the ioctl request-code encoding are
embedded from the source header and the kernel uapi headers it includes
(linux/btrfs.h, asm-generic/ioctl.h); the search client (cursor, decoder,
walker, projection) is not present in the source tree and is modelled
from the specification text.
-/

namespace BtrfsSearch

/-- Size in bytes of a C struct given as an ordered list of
(field name, field size) pairs.  All structs modelled here are free of
internal padding (every field is naturally aligned at its offset), so the
size is the plain sum of the field sizes. -/
def structSize (fields : List (String × Nat)) : Nat :=
  (fields.map Prod.snd).sum

/-- Byte offset of a named field inside a padding-free C struct layout. -/
def offsetOf : List (String × Nat) → String → Nat
  | [], _ => 0
  | (n, sz) :: rest, name => if n = name then 0 else sz + offsetOf rest name

/-- Field layout of struct btrfs_ioctl_search_key from the kernel uapi
header included by src/wrapper.h: seven u64 bounds, four u32 fields, four
spare u64 fields; 104 bytes, no padding. -/
def btrfs_ioctl_search_key_fields : List (String × Nat) :=
  [("tree_id", 8), ("min_objectid", 8), ("max_objectid", 8),
   ("min_offset", 8), ("max_offset", 8), ("min_transid", 8),
   ("max_transid", 8), ("min_type", 4), ("max_type", 4),
   ("nr_items", 4), ("unused", 4), ("unused1", 8), ("unused2", 8),
   ("unused3", 8), ("unused4", 8)]

/-- The wrapper's inline response-buffer capacity: the declared length of
uint8_t buf[65536] in struct btrfs_ioctl_search_args_v2_64KB
(src/wrapper.h line 9). -/
def bufCapacity : Nat := 65536

/-- The kernel's documented hard ceiling on the v2 search buffer, noted in
the comment on src/wrapper.h line 9: 16 MB. -/
def kernelHardCeiling : Nat := 16 * 1024 * 1024

/-- Field layout of struct btrfs_ioctl_search_args_v2_64KB from
src/wrapper.h lines 5-10: the kernel search key, a u64 buf_size, then the
fixed 65536-byte inline buffer. -/
def btrfs_ioctl_search_args_v2_64KB_fields : List (String × Nat) :=
  [("key", structSize btrfs_ioctl_search_key_fields),
   ("buf_size", 8), ("buf", bufCapacity)]

/-- Field layout of the kernel's variable-length
struct btrfs_ioctl_search_args_v2: the search key, a u64 buf_size, then a
flexible array member (size 0 in sizeof). -/
def btrfs_ioctl_search_args_v2_fields : List (String × Nat) :=
  [("key", structSize btrfs_ioctl_search_key_fields),
   ("buf_size", 8), ("buf", 0)]

/-- The _IOC request-code encoding from asm-generic/ioctl.h:
dir at bit 30, size at bit 16, type at bit 8, nr at bit 0.  The dir
operand of _IOWR is the unsigned literal 2U|1U and the size operand is a
sizeof expression of type size_t, so the whole C expression is computed
in 64-bit unsigned arithmetic, modelled as Nat reduced mod 2^64. -/
def IOC (dir ty nr size : Nat) : Nat :=
  ((dir <<< 30) ||| (ty <<< 8) ||| (nr <<< 0) ||| (size <<< 16)) % 2 ^ 64

/-- The _IOWR macro: direction bits read|write = 3. -/
def IOWR (ty nr size : Nat) : Nat := IOC 3 ty nr size

/-- BTRFS_IOC_TREE_SEARCH_V2 from the kernel uapi header:
_IOWR(BTRFS_IOCTL_MAGIC = 0x94, 17, struct btrfs_ioctl_search_args_v2). -/
def BTRFS_IOC_TREE_SEARCH_V2 : Nat :=
  IOWR 0x94 17 (structSize btrfs_ioctl_search_args_v2_fields)

/-- The one integer constant exposed by src/wrapper.h line 12:
unsigned long BTRFS_IOC_TREE_SEARCH_V2_ULONG = BTRFS_IOC_TREE_SEARCH_V2.
The C initialization converts the request-code expression to the 64-bit
unsigned long type, modelled as reduction mod 2^64. -/
def BTRFS_IOC_TREE_SEARCH_V2_ULONG : Nat :=
  BTRFS_IOC_TREE_SEARCH_V2 % 2 ^ 64

/-- Field layout of struct btrfs_ioctl_search_header from the kernel uapi
header: u64 transid, u64 objectid, u64 offset, u32 type, u32 len. -/
def btrfs_ioctl_search_header_fields : List (String × Nat) :=
  [("transid", 8), ("objectid", 8), ("offset", 8), ("type", 4), ("len", 4)]

/-- The per-item header layout as the specification states it: object id
(8 bytes), item type (1-byte tag widened to a 4-byte field), offset
(8 bytes), transaction id (8 bytes), payload length (4 bytes), in that
order.  Kept for comparison against the kernel's published layout. -/
def specSearchHeaderFields : List (String × Nat) :=
  [("objectid", 8), ("type", 4), ("offset", 8), ("transid", 8), ("len", 4)]

/-- Largest value of an unsigned 64-bit field. -/
def U64_MAX : Nat := 2 ^ 64 - 1

/-- Largest value of the 8-bit item type tag. -/
def U8_MAX : Nat := 255

/-- Modelled from the spec: RawItemHeader — the on-disk key triple
(object id, item type, offset) plus transaction id and payload length as
returned by the kernel; immutable once read (§3).  The source tree
contains no implementation of the search client, so this and the
following definitions follow the specification text. -/
structure RawItemHeader where
  objectid : Nat
  itemType : Nat
  offset : Nat
  transid : Nat
  len : Nat
deriving DecidableEq

/-- Modelled from the spec: SearchKey — paired min/max bounds for object
id, item type, offset and transaction id (§3). -/
structure SearchKey where
  minObjectid : Nat
  maxObjectid : Nat
  minItemType : Nat
  maxItemType : Nat
  minOffset : Nat
  maxOffset : Nat
  minTransid : Nat
  maxTransid : Nat
deriving DecidableEq

/-- Modelled from the spec: advance_past (§4.2) — sets the minimum key to
(header.object_id, header.item_type, header.offset + 1) with
unsigned-wraparound handling: offset overflow carries into item type,
item type overflow carries into object id, and object id overflow makes
the walk complete, signalled here by none. -/
def SearchKey.advance_past (k : SearchKey) (h : RawItemHeader) :
    Option SearchKey :=
  if h.offset < U64_MAX then
    some { k with minObjectid := h.objectid, minItemType := h.itemType,
                  minOffset := h.offset + 1 }
  else if h.itemType < U8_MAX then
    some { k with minObjectid := h.objectid, minItemType := h.itemType + 1,
                  minOffset := 0 }
  else if h.objectid < U64_MAX then
    some { k with minObjectid := h.objectid + 1, minItemType := 0,
                  minOffset := 0 }
  else
    none

/-- Modelled from the spec: the full-range default SearchKey (§4.2) —
object id 0..max, type 0..max, offset 0..max, transaction id 0..max. -/
def fullRangeKey : SearchKey :=
  ⟨0, U64_MAX, 0, U8_MAX, 0, U64_MAX, 0, U64_MAX⟩

/-- Modelled from the spec: the Tree Walker's states (§4.4). -/
inductive WalkerState where
  | Idle
  | Querying
  | Draining
  | Exhausted
  | Failed
deriving DecidableEq

/-- Modelled from the spec: the Draining → Querying step (§4.4) — the key
is advanced past the last header; terminal overflow of advance_past sends
the walker to Exhausted instead of issuing another call. -/
def advanceKey (k : SearchKey) (h : RawItemHeader) :
    WalkerState × SearchKey :=
  match k.advance_past h with
  | none => (WalkerState.Exhausted, k)
  | some k2 => (WalkerState.Querying, k2)

/-- Modelled from the spec: the Result Decoder's failure taxonomy (§4.3,
§7) — the only decoder error is TruncatedResponse. -/
inductive DecodeError where
  | TruncatedResponse
deriving DecidableEq

/-- Modelled from the spec: ResponseBuffer (§3) — the byte region the
kernel wrote, plus the kernel-reported count of items in it. -/
structure ResponseBuffer where
  bytes : List Nat
  count : Nat
deriving DecidableEq

/-- Modelled from the spec: little-endian value of a byte list, least
significant byte first (§4.1, Binary Cursor reads are little-endian). -/
def leVal : List Nat → Nat
  | [] => 0
  | b :: bs => b + 256 * leVal bs

/-- Modelled from the spec: Binary Cursor fixed-width read (§4.1) — reads
a width-byte little-endian integer from the front of the remaining bytes
and advances past it; none when the read would exceed the span. -/
def readLE (width : Nat) (bytes : List Nat) : Option (Nat × List Nat) :=
  if width ≤ bytes.length then
    some (leVal (bytes.take width), bytes.drop width)
  else
    none

/-- Modelled from the spec: Binary Cursor read-bytes(n) (§4.1) — takes n
raw bytes from the front; none when the read would exceed the span. -/
def readBytes (n : Nat) (bytes : List Nat) :
    Option (List Nat × List Nat) :=
  if n ≤ bytes.length then some (bytes.take n, bytes.drop n) else none

/-- Modelled from the spec: reading one per-item header in the field
order the specification gives (§6): object id (8), item type (4, the
widened tag), offset (8), transaction id (8), payload length (4). -/
def readHeader (bytes : List Nat) : Option (RawItemHeader × List Nat) :=
  (readLE 8 bytes).bind fun p1 =>
  (readLE 4 p1.2).bind fun p2 =>
  (readLE 8 p2.2).bind fun p3 =>
  (readLE 8 p3.2).bind fun p4 =>
  (readLE 4 p4.2).bind fun p5 =>
  some (⟨p1.1, p2.1, p3.1, p4.1, p5.1⟩, p5.2)

/-- Modelled from the spec: the Result Decoder's item loop (§4.3) — for
each of count items read a header then its payload_length payload bytes;
stop after exactly count items; none when a read runs past the buffer
bounds. -/
def decodeItems :
    Nat → List Nat → Option (List (RawItemHeader × List Nat))
  | 0, _ => some []
  | n + 1, bytes =>
    (readHeader bytes).bind fun q =>
    (readBytes q.1.len q.2).bind fun pp =>
    (decodeItems n pp.2).bind fun items =>
    some ((q.1, pp.1) :: items)

/-- Modelled from the spec: decoding a whole ResponseBuffer — exactly the
kernel-reported count of items from the start of the buffer; an
out-of-bounds header or payload read fails with TruncatedResponse
(§4.3). -/
def decodeResponse (rb : ResponseBuffer) :
    Except DecodeError (List (RawItemHeader × List Nat)) :=
  match decodeItems rb.count rb.bytes with
  | none => Except.error DecodeError.TruncatedResponse
  | some recs => Except.ok recs

/-- Modelled from the spec: the walker's reaction in Querying to one
kernel response (§4.4): a decoder error sends it to Failed, count zero to
Exhausted, otherwise to Draining. -/
def stepOnResponse (_s : WalkerState) (rb : ResponseBuffer) : WalkerState :=
  match decodeResponse rb with
  | Except.error _ => WalkerState.Failed
  | Except.ok _ =>
    if rb.count = 0 then WalkerState.Exhausted else WalkerState.Draining

/-- Modelled from the spec: DecodedRecord — a tagged variant over item
types, each carrying its header and the copied payload bytes, with an
Unknown escape hatch carrying the raw payload (§3). -/
inductive DecodedRecord where
  | ChunkItem (hdr : RawItemHeader) (payload : List Nat)
  | ExtentItem (hdr : RawItemHeader) (payload : List Nat)
  | DirItem (hdr : RawItemHeader) (payload : List Nat)
  | InodeItem (hdr : RawItemHeader) (payload : List Nat)
  | RootItem (hdr : RawItemHeader) (payload : List Nat)
  | Unknown (hdr : RawItemHeader) (rawBytes : List Nat)
deriving DecidableEq

/-- Modelled from the spec: the per-record projection failure (§4.5, §7). -/
inductive ProjectionError where
  | MalformedPayload
deriving DecidableEq

/-- Modelled from the spec: the minimum on-disk structure size of each
known item type (§4.5), keyed by the kernel item type tags for chunk
(228), extent (168), dir (84), inode (150) and root (132) items; none for
item types the client does not model. -/
def minOnDiskSize : Nat → Option Nat
  | 228 => some 80
  | 168 => some 24
  | 84 => some 30
  | 150 => some 160
  | 132 => some 439
  | _ => none

/-- Modelled from the spec: the typed variant built for a known item type
tag once its payload length has been validated (§4.5). -/
def mkKnown (hdr : RawItemHeader) (payload : List Nat) : DecodedRecord :=
  if hdr.itemType = 228 then DecodedRecord.ChunkItem hdr payload
  else if hdr.itemType = 168 then DecodedRecord.ExtentItem hdr payload
  else if hdr.itemType = 84 then DecodedRecord.DirItem hdr payload
  else if hdr.itemType = 150 then DecodedRecord.InodeItem hdr payload
  else if hdr.itemType = 132 then DecodedRecord.RootItem hdr payload
  else DecodedRecord.Unknown hdr payload

/-- Modelled from the spec: Typed Record Projection (§4.5) — a pure
function dispatching on the item type tag; known types assert payload
length ≥ the type's minimum size and fail per-record with
MalformedPayload when too short; unknown types always produce Unknown
with the raw payload, never an error. -/
def project (hdr : RawItemHeader) (payload : List Nat) :
    Except ProjectionError DecodedRecord :=
  match minOnDiskSize hdr.itemType with
  | none => Except.ok (DecodedRecord.Unknown hdr payload)
  | some m =>
    if payload.length < m then Except.error ProjectionError.MalformedPayload
    else Except.ok (mkKnown hdr payload)

/-- Modelled from the spec: projecting every record of a batch; a
MalformedPayload is reported in place alongside valid records and the
walk continues past it (§7). -/
def projectAll (recs : List (RawItemHeader × List Nat)) :
    List (Except ProjectionError DecodedRecord) :=
  recs.map fun it => project it.1 it.2

/-- Modelled from the spec: little-endian encoding of a value into a
fixed number of bytes, least significant byte first. -/
def leBytes : Nat → Nat → List Nat
  | 0, _ => []
  | w + 1, v => v % 256 :: leBytes w (v / 256)

/-- Modelled from the spec: encoding one per-item header in the field
order of §6, inverse to readHeader. -/
def encodeHeader (h : RawItemHeader) : List Nat :=
  leBytes 8 h.objectid ++ leBytes 4 h.itemType ++ leBytes 8 h.offset ++
    leBytes 8 h.transid ++ leBytes 4 h.len

/-- Modelled from the spec: the packed byte sequence of (header, payload)
pairs that a synthetic kernel response carries (§6, §8 round-trip). -/
def encodeItems : List (RawItemHeader × List Nat) → List Nat
  | [] => []
  | (h, p) :: rest => encodeHeader h ++ p ++ encodeItems rest

/-- Modelled from the spec: a synthetic ResponseBuffer built from N
synthetic (header, payload) pairs with item count N (§8). -/
def encodeResponse (items : List (RawItemHeader × List Nat)) :
    ResponseBuffer :=
  ⟨encodeItems items, items.length⟩

/-- Modelled from the spec: a header whose fields fit their wire widths —
u64 object id, offset and transaction id, the widened u32 item type
field, u32 payload length. -/
def ValidHeader (h : RawItemHeader) : Prop :=
  h.objectid < 2 ^ 64 ∧ h.itemType < 2 ^ 32 ∧ h.offset < 2 ^ 64 ∧
    h.transid < 2 ^ 64 ∧ h.len < 2 ^ 32

instance (h : RawItemHeader) : Decidable (ValidHeader h) := by
  unfold ValidHeader
  infer_instance

/-- Modelled from the spec: a well-formed synthetic (header, payload)
pair — in-range header fields and a payload of exactly the declared
length. -/
def ValidItem (it : RawItemHeader × List Nat) : Prop :=
  ValidHeader it.1 ∧ it.1.len = it.2.length

instance (it : RawItemHeader × List Nat) : Decidable (ValidItem it) := by
  unfold ValidItem
  infer_instance

end BtrfsSearch

namespace BtrfsSearch

/-- C1: the wrapper's fixed per-call response-buffer capacity is 65536
bytes, a value in the tens of kilobytes, and it is strictly less than the
16 MB kernel hard ceiling documented alongside the declaration. -/
theorem capacity_is_64KB_below_ceiling :
    bufCapacity = 65536 ∧
    10 * 1000 ≤ bufCapacity ∧ bufCapacity < 100 * 1000 ∧
    kernelHardCeiling = 16 * 1024 * 1024 ∧
    bufCapacity < kernelHardCeiling := by
  decide

/-- C2: the exposed constant BTRFS_IOC_TREE_SEARCH_V2_ULONG equals the
kernel header's BTRFS_IOC_TREE_SEARCH_V2 request code (0xC0709411); the
code fits in 32 bits, so the conversion to the 64-bit unsigned long
preserves the value and never truncates it. -/
theorem tree_search_v2_ulong_preserves_value :
    BTRFS_IOC_TREE_SEARCH_V2_ULONG = BTRFS_IOC_TREE_SEARCH_V2 ∧
    BTRFS_IOC_TREE_SEARCH_V2 = 0xC0709411 ∧
    BTRFS_IOC_TREE_SEARCH_V2 < 2 ^ 32 := by
  decide

/-- C3 counterexample: the specification's stated header layout (object
id, type, offset, transaction id, length) differs from the kernel's
published struct btrfs_ioctl_search_header, whose field order is
transaction id, object id, offset, type, length. -/
theorem spec_header_order_ne_kernel :
    specSearchHeaderFields ≠ btrfs_ioctl_search_header_fields := by
  decide

/-- C3 amended: the per-item header has exactly the five fields the
specification lists, with the item type tag widened to a 4-byte field and
a 32-byte total, but the kernel's published field order is transaction id
(8), object id (8), offset (8), type (4), payload length (4) — not the
order the specification states. -/
theorem search_header_layout_amended :
    btrfs_ioctl_search_header_fields =
      [("transid", 8), ("objectid", 8), ("offset", 8),
       ("type", 4), ("len", 4)] ∧
    structSize btrfs_ioctl_search_header_fields = 32 ∧
    List.Perm specSearchHeaderFields btrfs_ioctl_search_header_fields ∧
    specSearchHeaderFields ≠ btrfs_ioctl_search_header_fields := by
  refine ⟨rfl, rfl, ?_, ?_⟩ <;> decide

/-- C10: the wrapper struct lays out key, buf_size, buf in the same order
and at the same offsets as the kernel's variable-length
btrfs_ioctl_search_args_v2, and any response of n ≤ 65536 bytes written
into buf ends at offset 112 + n, within the struct's own 65648 bytes. -/
theorem wrapper_layout_leading_fields_safe (n : Nat) (hn : n ≤ bufCapacity) :
    btrfs_ioctl_search_args_v2_64KB_fields.map Prod.fst =
      btrfs_ioctl_search_args_v2_fields.map Prod.fst ∧
    offsetOf btrfs_ioctl_search_args_v2_64KB_fields "key" =
      offsetOf btrfs_ioctl_search_args_v2_fields "key" ∧
    offsetOf btrfs_ioctl_search_args_v2_64KB_fields "buf_size" =
      offsetOf btrfs_ioctl_search_args_v2_fields "buf_size" ∧
    offsetOf btrfs_ioctl_search_args_v2_64KB_fields "buf" =
      offsetOf btrfs_ioctl_search_args_v2_fields "buf" ∧
    offsetOf btrfs_ioctl_search_args_v2_64KB_fields "buf" + n ≤
      structSize btrfs_ioctl_search_args_v2_64KB_fields := by
  refine ⟨rfl, rfl, rfl, rfl, ?_⟩
  have h1 : offsetOf btrfs_ioctl_search_args_v2_64KB_fields "buf" = 112 := by
    decide
  have h2 : structSize btrfs_ioctl_search_args_v2_64KB_fields = 65648 := by
    decide
  have h3 : bufCapacity = 65536 := rfl
  rw [h1, h2]
  omega

/-- C10 witness: at the maximal buf_size value 65536 the written response
exactly fills the struct's storage without overrunning it. -/
theorem wrapper_layout_leading_fields_safe_witness :
    (65536 : Nat) ≤ bufCapacity ∧
    offsetOf btrfs_ioctl_search_args_v2_64KB_fields "buf" + 65536 ≤
      structSize btrfs_ioctl_search_args_v2_64KB_fields :=
  ⟨by decide, (wrapper_layout_leading_fields_safe 65536 (by decide)).2.2.2.2⟩

/-- A successful fixed-width read is unchanged by bytes appended after
the span it consumed. -/
theorem readLE_append {w : Nat} {bytes : List Nat} {p : Nat × List Nat}
    (h : readLE w bytes = some p) (extra : List Nat) :
    readLE w (bytes ++ extra) = some (p.1, p.2 ++ extra) := by
  unfold readLE at h ⊢
  split at h
  case isTrue hle =>
    obtain ⟨hv, hr⟩ := Prod.mk.injEq .. ▸ Option.some.injEq .. ▸ h
    have hle2 : w ≤ (bytes ++ extra).length := by
      rw [List.length_append]; omega
    rw [if_pos hle2, List.take_append_of_le_length hle,
        List.drop_append_of_le_length hle, ← hv, ← hr]
  case isFalse => exact absurd h (by simp)

/-- A successful fixed-width read consumed exactly its width. -/
theorem readLE_length {w : Nat} {bytes : List Nat} {p : Nat × List Nat}
    (h : readLE w bytes = some p) :
    p.2.length + w = bytes.length := by
  unfold readLE at h
  split at h
  case isTrue hle =>
    obtain ⟨_, hr⟩ := Prod.mk.injEq .. ▸ Option.some.injEq .. ▸ h
    rw [← hr, List.length_drop]
    omega
  case isFalse => exact absurd h (by simp)

/-- A successful raw-bytes read is unchanged by bytes appended after the
span it consumed. -/
theorem readBytes_append {n : Nat} {bytes : List Nat}
    {p : List Nat × List Nat} (h : readBytes n bytes = some p)
    (extra : List Nat) :
    readBytes n (bytes ++ extra) = some (p.1, p.2 ++ extra) := by
  unfold readBytes at h ⊢
  split at h
  case isTrue hle =>
    obtain ⟨hv, hr⟩ := Prod.mk.injEq .. ▸ Option.some.injEq .. ▸ h
    have hle2 : n ≤ (bytes ++ extra).length := by
      rw [List.length_append]; omega
    rw [if_pos hle2, List.take_append_of_le_length hle,
        List.drop_append_of_le_length hle, ← hv, ← hr]
  case isFalse => exact absurd h (by simp)

/-- A successful raw-bytes read consumed exactly its length. -/
theorem readBytes_length {n : Nat} {bytes : List Nat}
    {p : List Nat × List Nat} (h : readBytes n bytes = some p) :
    p.2.length + n = bytes.length := by
  unfold readBytes at h
  split at h
  case isTrue hle =>
    obtain ⟨_, hr⟩ := Prod.mk.injEq .. ▸ Option.some.injEq .. ▸ h
    rw [← hr, List.length_drop]
    omega
  case isFalse => exact absurd h (by simp)

/-- Reading exactly the leading bytes of an append returns them whole. -/
theorem readBytes_exact (p rest : List Nat) :
    readBytes p.length (p ++ rest) = some (p, rest) := by
  unfold readBytes
  have hle : p.length ≤ (p ++ rest).length := by
    rw [List.length_append]; omega
  rw [if_pos hle, List.take_left, List.drop_left]

/-- A successful header read is unchanged by bytes appended after the
span it consumed. -/
theorem readHeader_append {bytes : List Nat}
    {q : RawItemHeader × List Nat} (h : readHeader bytes = some q)
    (extra : List Nat) :
    readHeader (bytes ++ extra) = some (q.1, q.2 ++ extra) := by
  unfold readHeader at h ⊢
  obtain ⟨p1, h1, h⟩ := Option.bind_eq_some.mp h
  obtain ⟨p2, h2, h⟩ := Option.bind_eq_some.mp h
  obtain ⟨p3, h3, h⟩ := Option.bind_eq_some.mp h
  obtain ⟨p4, h4, h⟩ := Option.bind_eq_some.mp h
  obtain ⟨p5, h5, h⟩ := Option.bind_eq_some.mp h
  rw [readLE_append h1 extra]
  simp only [Option.some_bind]
  rw [readLE_append h2 extra]
  simp only [Option.some_bind]
  rw [readLE_append h3 extra]
  simp only [Option.some_bind]
  rw [readLE_append h4 extra]
  simp only [Option.some_bind]
  rw [readLE_append h5 extra]
  simp only [Option.some_bind]
  injection h with h
  rw [← h]

/-- A successful header read consumed exactly the 32 header bytes. -/
theorem readHeader_length {bytes : List Nat}
    {q : RawItemHeader × List Nat} (h : readHeader bytes = some q) :
    q.2.length + 32 = bytes.length := by
  unfold readHeader at h
  obtain ⟨p1, h1, h⟩ := Option.bind_eq_some.mp h
  obtain ⟨p2, h2, h⟩ := Option.bind_eq_some.mp h
  obtain ⟨p3, h3, h⟩ := Option.bind_eq_some.mp h
  obtain ⟨p4, h4, h⟩ := Option.bind_eq_some.mp h
  obtain ⟨p5, h5, h⟩ := Option.bind_eq_some.mp h
  have l1 := readLE_length h1
  have l2 := readLE_length h2
  have l3 := readLE_length h3
  have l4 := readLE_length h4
  have l5 := readLE_length h5
  injection h with h
  have hq : q.2 = p5.2 := by rw [← h]
  rw [hq]
  omega

/-- A successful decode yields exactly the requested number of items. -/
theorem decodeItems_length {n : Nat} {bytes : List Nat}
    {recs : List (RawItemHeader × List Nat)}
    (h : decodeItems n bytes = some recs) :
    recs.length = n := by
  induction n generalizing bytes recs with
  | zero =>
    unfold decodeItems at h
    injection h with h
    rw [← h]
    rfl
  | succ n ih =>
    unfold decodeItems at h
    obtain ⟨q, h1, h⟩ := Option.bind_eq_some.mp h
    obtain ⟨pp, h2, h⟩ := Option.bind_eq_some.mp h
    obtain ⟨items, h3, h⟩ := Option.bind_eq_some.mp h
    injection h with h
    rw [← h, List.length_cons, ih h3]

/-- A successful decode of n items consumed at least 32 bytes each, so
the buffer holds at least 32 * n bytes. -/
theorem decodeItems_bound {n : Nat} {bytes : List Nat}
    {recs : List (RawItemHeader × List Nat)}
    (h : decodeItems n bytes = some recs) :
    32 * n ≤ bytes.length := by
  induction n generalizing bytes recs with
  | zero => omega
  | succ n ih =>
    unfold decodeItems at h
    obtain ⟨q, h1, h⟩ := Option.bind_eq_some.mp h
    obtain ⟨pp, h2, h⟩ := Option.bind_eq_some.mp h
    obtain ⟨items, h3, h⟩ := Option.bind_eq_some.mp h
    have b1 := readHeader_length h1
    have b2 := readBytes_length h2
    have b3 := ih h3
    omega

/-- A successful decode is unchanged by bytes appended after the items it
consumed. -/
theorem decodeItems_append {n : Nat} {bytes : List Nat}
    {recs : List (RawItemHeader × List Nat)}
    (h : decodeItems n bytes = some recs) (extra : List Nat) :
    decodeItems n (bytes ++ extra) = some recs := by
  induction n generalizing bytes recs with
  | zero =>
    unfold decodeItems at h ⊢
    exact h
  | succ n ih =>
    unfold decodeItems at h ⊢
    obtain ⟨q, h1, h⟩ := Option.bind_eq_some.mp h
    obtain ⟨pp, h2, h⟩ := Option.bind_eq_some.mp h
    obtain ⟨items, h3, h⟩ := Option.bind_eq_some.mp h
    rw [readHeader_append h1 extra]
    simp only [Option.some_bind]
    rw [readBytes_append h2 extra]
    simp only [Option.some_bind]
    rw [ih h3]
    simp only [Option.some_bind]
    exact h

/-- decodeResponse succeeds exactly when the item loop does, with the
same records. -/
theorem decodeResponse_ok_iff {rb : ResponseBuffer}
    {recs : List (RawItemHeader × List Nat)} :
    decodeResponse rb = Except.ok recs ↔
      decodeItems rb.count rb.bytes = some recs := by
  unfold decodeResponse
  cases h : decodeItems rb.count rb.bytes <;> simp

/-- decodeResponse can only fail with TruncatedResponse, and does so
exactly when the item loop runs out of bytes. -/
theorem decodeResponse_error_iff {rb : ResponseBuffer} {e : DecodeError} :
    decodeResponse rb = Except.error e ↔
      decodeItems rb.count rb.bytes = none := by
  unfold decodeResponse
  cases e
  cases h : decodeItems rb.count rb.bytes <;> simp

/-- The little-endian encoder emits exactly its width in bytes. -/
theorem leBytes_length (w : Nat) : ∀ v : Nat, (leBytes w v).length = w := by
  induction w with
  | zero => intro v; rfl
  | succ w ih =>
    intro v
    unfold leBytes
    rw [List.length_cons, ih]

/-- The little-endian value of an encoded number is that number reduced
modulo the field's range. -/
theorem leVal_leBytes (w : Nat) : ∀ v : Nat, leVal (leBytes w v) = v % 256 ^ w := by
  induction w with
  | zero =>
    intro v
    unfold leBytes leVal
    rw [pow_zero, Nat.mod_one]
  | succ w ih =>
    intro v
    unfold leBytes leVal
    rw [ih, pow_succ', Nat.mod_mul]

/-- Reading back an in-range little-endian encoding recovers the value
and leaves the trailing bytes. -/
theorem readLE_leBytes (w v : Nat) (rest : List Nat) :
    readLE w (leBytes w v ++ rest) = some (v % 256 ^ w, rest) := by
  unfold readLE
  have hlen : w ≤ (leBytes w v ++ rest).length := by
    rw [List.length_append, leBytes_length]
    omega
  rw [if_pos hlen, List.take_left' (leBytes_length w v),
      List.drop_left' (leBytes_length w v), leVal_leBytes]

/-- Reading back the encoding of a header with in-range fields recovers
the header and leaves the trailing bytes. -/
theorem readHeader_encode {h : RawItemHeader} (hv : ValidHeader h)
    (rest : List Nat) :
    readHeader (encodeHeader h ++ rest) = some (h, rest) := by
  obtain ⟨b1, b2, b3, b4, b5⟩ := hv
  have e8 : (256 : Nat) ^ 8 = 2 ^ 64 := by norm_num
  have e4 : (256 : Nat) ^ 4 = 2 ^ 32 := by norm_num
  unfold readHeader encodeHeader
  simp only [List.append_assoc, readLE_leBytes, Option.some_bind]
  rw [e8, e4, Nat.mod_eq_of_lt b1, Nat.mod_eq_of_lt b2, Nat.mod_eq_of_lt b3,
      Nat.mod_eq_of_lt b4, Nat.mod_eq_of_lt b5]

/-- Decoding the encoding of a list of valid items recovers the items,
whatever bytes follow them. -/
theorem decodeItems_encodeItems {items : List (RawItemHeader × List Nat)}
    (hv : ∀ it ∈ items, ValidItem it) (rest : List Nat) :
    decodeItems items.length (encodeItems items ++ rest) = some items := by
  induction items generalizing rest with
  | nil => rfl
  | cons it tl ih =>
    obtain ⟨hd, p⟩ := it
    have hvit : ValidItem (hd, p) := hv _ (List.mem_cons_self _ _)
    have hvtl : ∀ x ∈ tl, ValidItem x := fun x hx =>
      hv x (List.mem_cons_of_mem _ hx)
    have hlen : hd.len = p.length := hvit.2
    show decodeItems (tl.length + 1)
      ((encodeHeader hd ++ p ++ encodeItems tl) ++ rest) = _
    unfold decodeItems
    rw [List.append_assoc, List.append_assoc, readHeader_encode hvit.1]
    simp only [Option.some_bind]
    rw [hlen, readBytes_exact p (encodeItems tl ++ rest)]
    simp only [Option.some_bind]
    rw [ih hvtl rest]
    simp only [Option.some_bind]

/-- C4: advance_past sets the minimum key to (object id, item type,
offset + 1) with a carry chain on unsigned wraparound — offset overflow
carries into item type, item type overflow carries into object id, and
object id overflow makes the walk terminal (Exhausted). -/
theorem advance_past_carry_chain (k : SearchKey) (h : RawItemHeader) :
    (h.offset < U64_MAX →
      k.advance_past h = some { k with minObjectid := h.objectid, minItemType := h.itemType, minOffset := h.offset + 1 }) ∧
    (h.offset = U64_MAX → h.itemType < U8_MAX →
      k.advance_past h = some { k with minObjectid := h.objectid, minItemType := h.itemType + 1, minOffset := 0 }) ∧
    (h.offset = U64_MAX → h.itemType = U8_MAX → h.objectid < U64_MAX →
      k.advance_past h = some { k with minObjectid := h.objectid + 1, minItemType := 0, minOffset := 0 }) ∧
    (h.offset = U64_MAX → h.itemType = U8_MAX → h.objectid = U64_MAX →
      k.advance_past h = none ∧
      (advanceKey k h).1 = WalkerState.Exhausted) := by
  refine ⟨fun h1 => ?_, fun h1 h2 => ?_, fun h1 h2 h3 => ?_,
    fun h1 h2 h3 => ?_⟩
  · unfold SearchKey.advance_past
    rw [if_pos h1]
  · unfold SearchKey.advance_past
    rw [h1, if_neg (Nat.lt_irrefl _), if_pos h2]
  · unfold SearchKey.advance_past
    rw [h1, h2, if_neg (Nat.lt_irrefl _), if_neg (Nat.lt_irrefl _),
        if_pos h3]
  · have hnone : k.advance_past h = none := by
      unfold SearchKey.advance_past
      rw [h1, h2, h3, if_neg (Nat.lt_irrefl _), if_neg (Nat.lt_irrefl _),
          if_neg (Nat.lt_irrefl _)]
    refine ⟨hnone, ?_⟩
    unfold advanceKey
    rw [hnone]

/-- C4 witness: from header (object id 5, item type 255, offset u64 max)
the next minimum is (6, 0, 0); from (u64 max, 255, u64 max) advance_past
is terminal and the walker reaches Exhausted. -/
theorem advance_past_carry_chain_witness :
    SearchKey.advance_past fullRangeKey ⟨5, 255, U64_MAX, 0, 0⟩ =
      some { fullRangeKey with minObjectid := 5 + 1, minItemType := 0, minOffset := 0 } ∧
    SearchKey.advance_past fullRangeKey ⟨U64_MAX, 255, U64_MAX, 0, 0⟩ =
      none ∧
    (advanceKey fullRangeKey ⟨U64_MAX, 255, U64_MAX, 0, 0⟩).1 =
      WalkerState.Exhausted :=
  ⟨(advance_past_carry_chain fullRangeKey ⟨5, 255, U64_MAX, 0, 0⟩).2.2.1
      rfl rfl (by decide),
   ((advance_past_carry_chain fullRangeKey
      ⟨U64_MAX, 255, U64_MAX, 0, 0⟩).2.2.2 rfl rfl rfl).1,
   ((advance_past_carry_chain fullRangeKey
      ⟨U64_MAX, 255, U64_MAX, 0, 0⟩).2.2.2 rfl rfl rfl).2⟩

/-- C5: a successful decode yields exactly the kernel-reported count of
records, bytes after the decoded items are ignored, and a count of zero
yields zero records whatever the buffer holds. -/
theorem decode_yields_count_ignores_trailing (rb : ResponseBuffer)
    (recs : List (RawItemHeader × List Nat))
    (h : decodeResponse rb = Except.ok recs) (extra junk : List Nat) :
    recs.length = rb.count ∧
    decodeResponse ⟨rb.bytes ++ extra, rb.count⟩ = Except.ok recs ∧
    decodeResponse ⟨junk, 0⟩ = Except.ok [] :=
  ⟨decodeItems_length (decodeResponse_ok_iff.mp h),
   decodeResponse_ok_iff.mpr
     (decodeItems_append (decodeResponse_ok_iff.mp h) extra),
   rfl⟩

/-- C5 witness: a one-item buffer with three trailing junk bytes decodes
to that one record, ignores two further appended bytes, and a non-empty
buffer with count zero decodes to no records. -/
theorem decode_yields_count_witness :
    ([((⟨1, 2, 3, 4, 2⟩ : RawItemHeader), [7, 8])]).length =
      (ResponseBuffer.mk
        (encodeItems [(⟨1, 2, 3, 4, 2⟩, [7, 8])] ++ [9, 9, 9]) 1).count ∧
    decodeResponse
      ⟨(encodeItems [(⟨1, 2, 3, 4, 2⟩, [7, 8])] ++ [9, 9, 9]) ++ [5, 6],
        1⟩ = Except.ok [(⟨1, 2, 3, 4, 2⟩, [7, 8])] ∧
    decodeResponse ⟨[1, 2, 3], 0⟩ = Except.ok [] :=
  decode_yields_count_ignores_trailing
    ⟨encodeItems [(⟨1, 2, 3, 4, 2⟩, [7, 8])] ++ [9, 9, 9], 1⟩
    [(⟨1, 2, 3, 4, 2⟩, [7, 8])] (by rfl) [5, 6] [1, 2, 3]

/-- C6: whenever the decoder fails it fails with TruncatedResponse and
the walker lands in Failed from any state; a buffer too short for its
reported count is such a failure; and a successful decode is never a
silent partial result — it always has exactly count records. -/
theorem truncated_response_fails_walk (rb : ResponseBuffer) :
    (∀ e, decodeResponse rb = Except.error e →
      e = DecodeError.TruncatedResponse ∧
      ∀ s, stepOnResponse s rb = WalkerState.Failed) ∧
    (rb.bytes.length < 32 * rb.count →
      decodeResponse rb = Except.error DecodeError.TruncatedResponse) ∧
    (∀ recs, decodeResponse rb = Except.ok recs →
      recs.length = rb.count) := by
  refine ⟨?_, ?_,
    fun recs h => decodeItems_length (decodeResponse_ok_iff.mp h)⟩
  · intro e he
    cases e
    refine ⟨rfl, fun s => ?_⟩
    unfold stepOnResponse
    rw [he]
  · intro hlt
    rw [decodeResponse_error_iff]
    cases hd : decodeItems rb.count rb.bytes with
    | none => rfl
    | some recs =>
      have := decodeItems_bound hd
      omega

/-- C6 witness: a buffer of one byte with reported count one cannot hold
a header, so decoding fails with TruncatedResponse and the walker in
Querying moves to Failed. -/
theorem truncated_response_fails_walk_witness :
    decodeResponse ⟨[0], 1⟩ =
      Except.error DecodeError.TruncatedResponse ∧
    stepOnResponse WalkerState.Querying ⟨[0], 1⟩ = WalkerState.Failed :=
  ⟨(truncated_response_fails_walk ⟨[0], 1⟩).2.1 (by decide),
   ((truncated_response_fails_walk ⟨[0], 1⟩).1
      DecodeError.TruncatedResponse
      ((truncated_response_fails_walk ⟨[0], 1⟩).2.1 (by decide))).2
      WalkerState.Querying⟩

/-- C7: a record whose item type tag is not one of the known types
projects to the Unknown variant carrying the raw payload bytes, never an
error. -/
theorem unknown_type_projects_unknown (hdr : RawItemHeader)
    (payload : List Nat) (h : minOnDiskSize hdr.itemType = none) :
    project hdr payload =
      Except.ok (DecodedRecord.Unknown hdr payload) := by
  unfold project
  rw [h]

/-- C7 witness: an unmodelled item type tag (77) with a minimal 1-byte
payload projects to Unknown carrying that byte. -/
theorem unknown_type_projects_unknown_witness :
    project ⟨9, 77, 0, 0, 1⟩ [42] =
      Except.ok (DecodedRecord.Unknown ⟨9, 77, 0, 0, 1⟩ [42]) :=
  unknown_type_projects_unknown ⟨9, 77, 0, 0, 1⟩ [42] (by decide)

/-- C8: a known item type with a payload shorter than its minimum
on-disk size fails with MalformedPayload for that record only; in a
batch the records before and after it are still projected, so the walk
continues rather than terminating. -/
theorem malformed_payload_is_per_record (hdr : RawItemHeader)
    (payload : List Nat) (m : Nat)
    (pre post : List (RawItemHeader × List Nat))
    (h1 : minOnDiskSize hdr.itemType = some m)
    (h2 : payload.length < m) :
    project hdr payload = Except.error ProjectionError.MalformedPayload ∧
    projectAll (pre ++ (hdr, payload) :: post) =
      projectAll pre ++
        Except.error ProjectionError.MalformedPayload ::
          projectAll post ∧
    (projectAll (pre ++ (hdr, payload) :: post)).length =
      pre.length + 1 + post.length := by
  have hp : project hdr payload =
      Except.error ProjectionError.MalformedPayload := by
    unfold project
    rw [h1]
    exact if_pos h2
  refine ⟨hp, ?_, ?_⟩
  · unfold projectAll
    rw [List.map_append, List.map_cons]
    simp only [hp]
  · unfold projectAll
    rw [List.length_map, List.length_append, List.length_cons]
    omega

/-- C8 witness: an extent item (tag 168, minimum 24 bytes) with a 2-byte
payload is reported MalformedPayload while the record after it in the
batch is still projected. -/
theorem malformed_payload_is_per_record_witness :
    project ⟨0, 168, 0, 0, 2⟩ [1, 2] =
      Except.error ProjectionError.MalformedPayload ∧
    projectAll ([] ++ (⟨0, 168, 0, 0, 2⟩, [1, 2]) ::
        [(⟨0, 7, 0, 0, 1⟩, [5])]) =
      projectAll [] ++
        Except.error ProjectionError.MalformedPayload ::
          projectAll [(⟨0, 7, 0, 0, 1⟩, [5])] ∧
    (projectAll ([] ++ (⟨0, 168, 0, 0, 2⟩, [1, 2]) ::
        [(⟨0, 7, 0, 0, 1⟩, [5])])).length =
      List.length ([] : List (RawItemHeader × List Nat)) + 1 +
        List.length ([(⟨0, 7, 0, 0, 1⟩, [5])] : List (RawItemHeader × List Nat)) :=
  malformed_payload_is_per_record ⟨0, 168, 0, 0, 2⟩ [1, 2] 24 []
    [(⟨0, 7, 0, 0, 1⟩, [5])] (by decide) (by decide)

/-- C9: encoding N valid (header, payload) pairs into a synthetic
ResponseBuffer with item count N and decoding it back yields exactly
those N records, field for field. -/
theorem encode_decode_roundtrip (items : List (RawItemHeader × List Nat))
    (hv : ∀ it ∈ items, ValidItem it) :
    (encodeResponse items).count = items.length ∧
    decodeResponse (encodeResponse items) = Except.ok items := by
  refine ⟨rfl, decodeResponse_ok_iff.mpr ?_⟩
  have h := decodeItems_encodeItems hv []
  rw [List.append_nil] at h
  exact h

/-- C9 witness: two synthetic records, one with a 2-byte payload and one
with an empty payload, survive the encode/decode round trip intact. -/
theorem encode_decode_roundtrip_witness :
    (encodeResponse [(⟨1, 2, 3, 4, 2⟩, [9, 9]), (⟨5, 6, 7, 8, 0⟩, [])]).count =
      ([(⟨1, 2, 3, 4, 2⟩, [9, 9]), ((⟨5, 6, 7, 8, 0⟩ : RawItemHeader), [])]).length ∧
    decodeResponse
        (encodeResponse [(⟨1, 2, 3, 4, 2⟩, [9, 9]), (⟨5, 6, 7, 8, 0⟩, [])]) =
      Except.ok [(⟨1, 2, 3, 4, 2⟩, [9, 9]), (⟨5, 6, 7, 8, 0⟩, [])] :=
  encode_decode_roundtrip
    [(⟨1, 2, 3, 4, 2⟩, [9, 9]), (⟨5, 6, 7, 8, 0⟩, [])] (by decide)

end BtrfsSearch
